import Mathlib

/-!
# Verification of the million-word-novel memory / consistency core

Shallow embedding of the claim-relevant parts of `src/core/consistency.py`
and `src/core/memory_system.py`.

Modelling conventions:
* Python `str` is Lean `String`; positions and lengths count code points,
  matching Python semantics.
* Python floats (the fixed weights 0.3/0.4/0.2/0.1, relevance increments,
  ratio thresholds) are modelled as exact rationals (`ℚ`); `int(x)` is
  truncation toward zero (`pyInt`), `//` is floor division (`Int.fdiv`).
* Python dicts are association lists preserving insertion order; assignment
  is `alSet` (update in place, append if new), lookup is `alGet`.
* `datetime.now().isoformat()` is an explicit `now : String` parameter.
* `hashlib.md5(...)`-derived integers are an explicit deterministic
  function parameter `h : String → Nat` (md5 itself is a fixed pure
  function of its input).
-/

/-- Python `int()` on a rational value: truncation toward zero
(`Int.tdiv` is truncated division, and `q.den` is positive). -/
def pyInt (q : ℚ) : Int := q.num.tdiv q.den

/-- Association-list lookup (Python `dict.get` / `in`). -/
def alGet {κ α : Type} [DecidableEq κ] (k : κ) : List (κ × α) → Option α
  | [] => none
  | (k', v) :: rest => if k' = k then some v else alGet k rest

/-- Association-list assignment (Python `d[k] = v`): updates the first
binding in place, otherwise appends, preserving insertion order. -/
def alSet {κ α : Type} [DecidableEq κ] (k : κ) (v : α) : List (κ × α) → List (κ × α)
  | [] => [(k, v)]
  | (k', v') :: rest => if k' = k then (k, v) :: rest else (k', v') :: alSet k v rest

/-- `a` is a prefix of `b` (character lists). -/
def isPre : List Char → List Char → Bool
  | [], _ => true
  | _ :: _, [] => false
  | a :: as, b :: bs => a == b && isPre as bs

/-- `n` occurs as a contiguous sublist of the second argument. -/
def subList (n : List Char) : List Char → Bool
  | [] => n.isEmpty
  | c :: cs => isPre n (c :: cs) || subList n cs

/-- Python `needle in haystack` on strings (substring test). -/
def strIn (needle haystack : String) : Bool :=
  subList needle.toList haystack.toList

/-- First index at which `n` occurs in the list, if any. -/
def findSub (n : List Char) : List Char → Option Nat
  | [] => if n.isEmpty then some 0 else none
  | c :: cs => if isPre n (c :: cs) then some 0 else (findSub n cs).map (· + 1)

/-- Python `haystack.find(needle)`: first code-point index, `-1` if absent. -/
def str_find (needle haystack : String) : Int :=
  match findSub needle.toList haystack.toList with
  | some i => (i : Int)
  | none => -1

/-- A character in the CJK range `[一-龥]` used by the keyword regex. -/
def isCJK (c : Char) : Bool := 0x4e00 ≤ c.toNat && c.toNat ≤ 0x9fa5

/-- Accumulator pass splitting a character list into maximal CJK runs
(first argument is the reversed current run). -/
def cjkRunsAux : List Char → List Char → List (List Char)
  | cur, [] => if cur.isEmpty then [] else [cur.reverse]
  | cur, c :: cs =>
    if isCJK c then cjkRunsAux (c :: cur) cs
    else if cur.isEmpty then cjkRunsAux [] cs
    else cur.reverse :: cjkRunsAux [] cs

/-- Maximal runs of CJK characters, in order (the matches of
`[一-龥]{2,}` are exactly those runs of length ≥ 2). -/
def cjkRuns (cs : List Char) : List (List Char) := cjkRunsAux [] cs

/-- The fixed stop-word list of `ConsistencyChecker._extract_keywords`. -/
def stopwords : List String :=
  ["的", "了", "在", "是", "我", "有", "和", "就", "不", "人", "都", "一",
   "一个", "上", "也", "很", "到", "说", "要", "去", "你", "会", "着",
   "没有", "看", "好", "自己", "这"]

/-- `ConsistencyChecker._extract_keywords`: CJK runs of length ≥ 2, minus
stop words, first `max_keywords` kept. -/
def extract_keywords (text : String) (max_keywords : Nat) : List String :=
  let chinese_words := ((cjkRuns text.toList).filter (fun r => 2 ≤ r.length)).map String.mk
  let keywords := chinese_words.filter (fun w => !(stopwords.contains w))
  keywords.take max_keywords

/-- Result record shared by the per-axis checks (`passed`, `score`,
`issues`, `suggestions`). -/
structure CheckResult where
  passed : Bool
  score : Int
  issues : List String
  suggestions : List String
deriving Repr, DecidableEq

/-- `ConsistencyChecker._calculate_continuity`: keyword-set overlap ratio. -/
def calculate_continuity (last_keywords current_keywords : List String) : ℚ :=
  if last_keywords.isEmpty || current_keywords.isEmpty then 0
  else
    let common := (last_keywords.dedup.filter (fun k => current_keywords.contains k)).length
    (common : ℚ) / (max last_keywords.dedup.length 1 : ℚ)

/-- `ConsistencyChecker._check_logical_issues`: one issue if more than 3
time-indicator words occur, plus one issue per contradiction word pair
both of whose members occur. -/
def check_logical_issues (content : String) : List String :=
  let time_indicators := ["之前", "之后", "刚才", "现在", "未来", "过去"]
  let time_mentions := time_indicators.filter (fun t => strIn t content)
  let time_issues := if 3 < time_mentions.length then ["时间描述可能存在矛盾"] else []
  let contradictions := [("死", "活"), ("有", "无"), ("存在", "不存在")]
  let contra_issues :=
    (contradictions.filter (fun p => strIn p.1 content && strIn p.2 content)).map
      (fun p => "可能存在\x27" ++ p.1 ++ "\x27和\x27" ++ p.2 ++ "\x27的矛盾")
  time_issues ++ contra_issues

/-- Character profile as read by `check_character_consistency`
(`.get('personality','')`, `.get('abilities',[])`, `.get('name','')`). -/
structure Profile where
  name : String
  personality : String
  abilities : List String
deriving Repr, DecidableEq

/-- `ConsistencyChecker.check_character_consistency`. -/
def check_character_consistency (character_name : String) (new_content : String)
    (existing_profile : Profile) : CheckResult :=
  let r0 : CheckResult := ⟨true, 100, [], []⟩
  let r1 :=
    if existing_profile.personality ≠ "" then
      let personality_keywords := extract_keywords existing_profile.personality 10
      let content_keywords := extract_keywords new_content 10
      let matching_keywords := personality_keywords.filter (fun k => content_keywords.contains k)
      let match_ratio : ℚ := (matching_keywords.length : ℚ) / (max personality_keywords.length 1 : ℚ)
      if match_ratio < 3/10 then
        { r0 with
          passed := false
          score := r0.score - 30
          issues := r0.issues ++ ["人物\x27" ++ character_name ++ "\x27的性格表现不一致"]
          suggestions := r0.suggestions ++
            ["在描述" ++ character_name ++ "时，请更多体现: " ++
              String.intercalate ", " (personality_keywords.take 5)] }
      else r0
    else r0
  if existing_profile.abilities ≠ [] then
    let mentioned_abilities := existing_profile.abilities.filter (fun a => strIn a new_content)
    if mentioned_abilities.length = 0 then
      { r1 with issues := r1.issues ++ ["人物\x27" ++ character_name ++ "\x27的能力未在场景中体现"] }
    else r1
  else r1

/-- `ConsistencyChecker.check_plot_consistency`. -/
def check_plot_consistency (new_content : String) (previous_summaries : List String) : CheckResult :=
  let r0 : CheckResult := ⟨true, 100, [], []⟩
  let r1 :=
    if previous_summaries ≠ [] then
      let last_summary := previous_summaries.getLastD ""
      let last_keywords := extract_keywords last_summary 10
      let current_keywords := extract_keywords new_content 10
      let continuity_score := calculate_continuity last_keywords current_keywords
      if continuity_score < 1/5 then
        { r0 with
          score := r0.score - 20
          issues := r0.issues ++ ["情节连贯性较弱"]
          suggestions := r0.suggestions ++ ["考虑增加与上一章的连接"] }
      else r0
    else r0
  let logical_issues := check_logical_issues new_content
  if logical_issues ≠ [] then
    { r1 with
      passed := false
      score := r1.score - 10 * logical_issues.length
      issues := r1.issues ++ logical_issues
      suggestions := r1.suggestions ++ ["检查情节逻辑，修复矛盾之处"] }
  else r1

/-- Worldview record as read by `check_worldview_consistency`
(`.get('special_rules','')`, `.get('culture','')`). -/
structure Worldview where
  special_rules : String
  culture : String
deriving Repr, DecidableEq

/-- `ConsistencyChecker.check_worldview_consistency`. The source computes
an always-empty `violations` list (the rule-check hook has no logic). -/
def check_worldview_consistency (new_content : String) (worldview : Worldview) : CheckResult :=
  let r0 : CheckResult := ⟨true, 100, [], []⟩
  let r1 :=
    if worldview.special_rules ≠ "" then
      let violations : List String := []
      if violations ≠ [] then
        { r0 with
          passed := false
          score := r0.score - 15 * violations.length
          issues := r0.issues ++ violations }
      else r0
    else r0
  if worldview.culture ≠ "" then
    let culture_keywords := extract_keywords worldview.culture 10
    let content_keywords := extract_keywords new_content 10
    let culture_match := (culture_keywords.take 5).any (fun k => content_keywords.contains k)
    if !culture_match && culture_keywords ≠ [] then
      { r1 with
        issues := r1.issues ++ ["文化风俗元素未充分体现"]
        suggestions := r1.suggestions ++
          ["考虑加入: " ++ String.intercalate ", " (culture_keywords.take 3)] }
    else r1
  else r1

/-- Chapter record as read by `full_consistency_check`
(`.get('content','')`, `.get('summary','')`). -/
structure ChapterData where
  content : String
  summary : String
deriving Repr, DecidableEq

/-- Result record of `full_consistency_check`. The worldview and timeline
fields are initialized to 0 and the source contains no code updating them. -/
structure FullCheckResult where
  overall_score : Int
  character_score : Int
  character_issues : List String
  plot_score : Int
  plot_issues : List String
  worldview_score : Int
  timeline_score : Int
deriving Repr, DecidableEq

/-- Insertion sort on chapter numbers (`chapter_numbers.sort()`). -/
def insertSorted (n : Nat) : List Nat → List Nat
  | [] => [n]
  | m :: rest => if n ≤ m then n :: m :: rest else m :: insertSorted n rest

/-- Sort a list of chapter numbers ascending. -/
def sortNats : List Nat → List Nat
  | [] => []
  | n :: rest => insertSorted n (sortNats rest)

/-- Adjacent pairs of a list (`(nums[i-1], nums[i])` for `i` in `1..len-1`). -/
def adjacentPairs : List Nat → List (Nat × Nat)
  | [] => []
  | [_] => []
  | a :: b :: rest => (a, b) :: adjacentPairs (b :: rest)

/-- Chapter-map lookup used by the plot loop of `full_consistency_check`
(keys are taken from the map, so the default is never reached there). -/
def chapLookup (chapters : List (Nat × ChapterData)) (n : Nat) : ChapterData :=
  (alGet n chapters).getD ⟨"", ""⟩

/-- `ConsistencyChecker.full_consistency_check`. The `outline` parameter of
the source is unused by its body and omitted. Worldview and timeline
component scores stay at their initialized value 0. -/
def full_consistency_check (characters : List Profile)
    (chapters : List (Nat × ChapterData)) : FullCheckResult :=
  let char_results := (characters.map (fun character =>
    (chapters.filter (fun cd => strIn character.name cd.2.content)).map
      (fun cd => check_character_consistency character.name cd.2.content character))).flatten
  let char_scores := char_results.map (·.score)
  let char_issues := ((char_results.map (·.issues)).flatten).take 5
  let character_score : Int :=
    if char_scores ≠ [] then (char_scores.foldl (· + ·) 0).fdiv char_scores.length else 0
  let chapter_numbers := sortNats (chapters.map Prod.fst)
  let plot_results := (adjacentPairs chapter_numbers).map (fun pr =>
    check_plot_consistency (chapLookup chapters pr.2).content [(chapLookup chapters pr.1).summary])
  let plot_scores := plot_results.map (·.score)
  let plot_issues := ((plot_results.map (·.issues)).flatten).take 5
  let plot_score : Int :=
    if plot_scores ≠ [] then (plot_scores.foldl (· + ·) 0).fdiv plot_scores.length else 0
  let worldview_score : Int := 0
  let timeline_score : Int := 0
  let component_scores : List Int := [character_score, plot_score, worldview_score, timeline_score]
  let weights : List ℚ := [3/10, 2/5, 1/5, 1/10]
  let overall : ℚ := ((component_scores.zip weights).map (fun p => (p.1 : ℚ) * p.2)).foldl (· + ·) 0
  { overall_score := pyInt overall
    character_score := character_score
    character_issues := char_issues
    plot_score := plot_score
    plot_issues := plot_issues
    worldview_score := worldview_score
    timeline_score := timeline_score }

/-- Context record of `check_chapter_consistency`: each category is
optional, mirroring the `'...' in context` membership tests. -/
structure ChapterContext where
  characters : Option (List Profile)
  previous_summaries : Option (List String)
  worldview : Option Worldview
deriving Repr, DecidableEq

/-- Result record of `check_chapter_consistency`. -/
structure CompositeResult where
  passed : Bool
  score : Int
  detailed_checks : List (String × CheckResult)
  issues : List String
  suggestions : List String
deriving Repr, DecidableEq

/-- Body of the character loop in `check_chapter_consistency` (block 1):
run the trait check for a character mentioned in the content, record it
under `character_<name>`, and fold its score in only when it failed. -/
def composite_char_step (content : String) (r : CompositeResult) (character : Profile) :
    CompositeResult :=
  if strIn character.name content then
    let char_result := check_character_consistency character.name content character
    let r' := { r with detailed_checks := r.detailed_checks ++ [("character_" ++ character.name, char_result)] }
    if !char_result.passed then
      { r' with
        passed := false
        score := min r'.score char_result.score
        issues := r'.issues ++ char_result.issues
        suggestions := r'.suggestions ++ char_result.suggestions }
    else r'
  else r

/-- Block 2 of `check_chapter_consistency`: the plot check, recorded under
`plot`; its score is folded in only when it failed. -/
def composite_plot_step (content : String) (previous_summaries : List String)
    (r : CompositeResult) : CompositeResult :=
  let plot_result := check_plot_consistency content previous_summaries
  let r' := { r with detailed_checks := r.detailed_checks ++ [("plot", plot_result)] }
  if !plot_result.passed then
    { r' with
      passed := false
      score := min r'.score plot_result.score
      issues := r'.issues ++ plot_result.issues
      suggestions := r'.suggestions ++ plot_result.suggestions }
  else r'

/-- Block 3 of `check_chapter_consistency`: the worldview check, recorded
under `worldview`; its score is folded in only when it failed. -/
def composite_worldview_step (content : String) (worldview : Worldview)
    (r : CompositeResult) : CompositeResult :=
  let worldview_result := check_worldview_consistency content worldview
  let r' := { r with detailed_checks := r.detailed_checks ++ [("worldview", worldview_result)] }
  if !worldview_result.passed then
    { r' with
      passed := false
      score := min r'.score worldview_result.score
      issues := r'.issues ++ worldview_result.issues
      suggestions := r'.suggestions ++ worldview_result.suggestions }
  else r'

/-- `ConsistencyChecker.check_chapter_consistency`: runs whichever axis
checks the context supports, in source order. -/
def check_chapter_consistency (chapter_data : ChapterData) (context : ChapterContext) :
    CompositeResult :=
  let r0 : CompositeResult := ⟨true, 100, [], [], []⟩
  let content := chapter_data.content
  let r1 := match context.characters with
    | none => r0
    | some chars => chars.foldl (composite_char_step content) r0
  let r2 := match context.previous_summaries with
    | none => r1
    | some ps => composite_plot_step content ps r1
  let r3 := match context.worldview with
    | none => r2
    | some wv => composite_worldview_step content wv r2
  r3

/-- One entry of a character's development history
(`{'chapter': ..., 'development': ..., 'timestamp': ...}`). -/
structure DevEntry where
  chapter : Nat
  development : String
  timestamp : String
deriving Repr, DecidableEq

/-- Character record as used by the memory system. `importance` mirrors an
optional dict key (`get('importance', 0)` in the inclusion rule,
`get('importance', 5)` in the relevance score); a `last_appearance` of 0
stands for the absent key (`get('last_appearance', 0)`). -/
structure CharData where
  importance : Option Int
  last_appearance : Nat
  development_history : List DevEntry
deriving Repr, DecidableEq

/-- Chapter summary record written by `update_with_chapter`. -/
structure ChapterSummary where
  summary : String
  chapter_number : Nat
  word_count : Nat
  key_events : List String
  timestamp : String
deriving Repr, DecidableEq

/-- A value of the chapter-summaries map: the source tolerates both plain
strings and the record form (`isinstance(summary_data, dict)` branches). -/
inductive SummaryVal where
  | txt (s : String)
  | record (r : ChapterSummary)
deriving Repr, DecidableEq

/-- One timeline event (`type` is the source's `'type'` key). -/
structure TimelineEvent where
  chapter : Nat
  description : String
  timestamp : String
  type_tag : String
deriving Repr, DecidableEq

/-- One plot thread. `last_updated` is optional: a freshly created thread
has no `'last_updated'` key. -/
structure Plot where
  name : String
  start_chapter : Nat
  end_chapter : Nat
  keywords : List String
  chapters : List Nat
  created_at : String
  last_updated : Option String
  current_status : String
deriving Repr, DecidableEq

/-- One record of the relationship graph. -/
structure RelRecord where
  characters : List String
  interaction_count : Nat
  first_interaction : Nat
  last_interaction : Nat
  interaction_chapters : List Nat
deriving Repr, DecidableEq

/-- One location record. -/
structure LocationData where
  name : String
  first_appearance : Nat
  last_appearance : Nat
  appearance_count : Nat
  description : String
  created_at : String
deriving Repr, DecidableEq

/-- One entry of the plan produced by `get_chapter_plan` (keys 章节, 幕,
目标字数, 状态, 摘要 rendered as English field names). -/
structure PlanEntry where
  chapter : Nat
  act : String
  target_word_count : Nat
  status : String
  summary_excerpt : String
deriving Repr, DecidableEq

/-- The `outline` entry of the core settings (`get('target_words', 100000)`). -/
structure Outline where
  target_words : Option Nat
deriving Repr, DecidableEq

/-- Core settings: the two keys the claims touch (`outline`,
`chapter_plan`) plus the remaining entries as an opaque key-value list. -/
structure CoreSettings where
  outline : Option Outline
  chapter_plan : Option (List PlanEntry)
  extra : List (String × String)
deriving Repr, DecidableEq

/-- In-memory state of `SmartMemory` (the Fact Store). -/
structure MemoryState where
  core_settings : CoreSettings
  characters : List (String × CharData)
  worldview : List (String × String)
  chapter_summaries : List (Nat × SummaryVal)
  relationship_graph : List (String × RelRecord)
  timeline : List TimelineEvent
  plots : List Plot
  locations : List (String × LocationData)
deriving Repr, DecidableEq

/-- Chapter data fed to `update_with_chapter` (absent keys as defaults). -/
structure ChapterInput where
  content : String
  summary : String
  key_events : List String
  character_development : List (String × String)
deriving Repr, DecidableEq

/-- Inner loop of `_extract_plots` over `key_events` for one plot: the
`break` exits at the first key event sharing a substring with one of the
plot's keywords, so each plot is extended at most once. -/
def plot_touch (now : String) (chapter_number : Nat) (key_events : List String) (p : Plot) : Plot :=
  match key_events with
  | [] => p
  | ev :: rest =>
    if p.keywords.any (fun kw => strIn kw ev) then
      { p with chapters := p.chapters ++ [chapter_number], last_updated := some now }
    else plot_touch now chapter_number rest p

/-- `SmartMemory._extract_plots`: every existing plot is offered the key
events (the `break` only exits the inner event loop), then a new thread is
created whenever there are at least 2 key events, regardless of matches. -/
def extract_plots (now : String) (key_events : List String) (chapter_number : Nat)
    (plots : List Plot) : List Plot :=
  if key_events = [] then plots
  else
    let updated := plots.map (plot_touch now chapter_number key_events)
    if 2 ≤ key_events.length then
      updated ++ [{ name := "情节线_" ++ toString (plots.length + 1)
                    start_chapter := chapter_number
                    end_chapter := chapter_number
                    keywords := key_events.take 3
                    chapters := [chapter_number]
                    created_at := now
                    last_updated := none
                    current_status := "进行中" }]
    else updated

/-- Pair test of `_update_relationships`: two distinct names both occur in
the content with first occurrences fewer than 500 characters apart. -/
def pairInteracts (content : String) (c1 c2 : String) : Bool :=
  if c1 ≠ c2 then
    if strIn c1 content && strIn c2 content then
      if (str_find c1 content - str_find c2 content).natAbs < 500 then true else false
    else false
  else false

/-- Graph update for one detected (ordered) interaction pair: the key is
the concatenation `char1-char2`, so the two orientations of a pair get
distinct keys. -/
def add_interaction (chapter_number : Nat) (g : List (String × RelRecord))
    (pr : String × String) : List (String × RelRecord) :=
  let relationship_key := pr.1 ++ "-" ++ pr.2
  match alGet relationship_key g with
  | none => alSet relationship_key
      { characters := [pr.1, pr.2], interaction_count := 1,
        first_interaction := chapter_number, last_interaction := chapter_number,
        interaction_chapters := [chapter_number] } g
  | some rel => alSet relationship_key
      { rel with
        interaction_count := rel.interaction_count + 1
        last_interaction := chapter_number
        interaction_chapters :=
          if rel.interaction_chapters.contains chapter_number then rel.interaction_chapters
          else rel.interaction_chapters ++ [chapter_number] } g

/-- `SmartMemory._update_relationships`: scans all ordered pairs of known
character names (both `(A,B)` and `(B,A)`) and folds each detected
interaction into the graph. -/
def update_relationships (names : List String) (content : String) (chapter_number : Nat)
    (graph : List (String × RelRecord)) : List (String × RelRecord) :=
  let character_interactions :=
    (names.map (fun c1 => (names.filter (fun c2 => pairInteracts content c1 c2)).map
        (fun c2 => (c1, c2)))).flatten
  character_interactions.foldl (add_interaction chapter_number) graph

/-- Greedy consumption of up to `limit` CJK characters
(the `[一-龥]{2,6}` group of the location patterns). -/
def takeCJK : Nat → List Char → List Char × List Char
  | 0, cs => ([], cs)
  | _ + 1, [] => ([], [])
  | n + 1, c :: cs =>
    if isCJK c then
      let (g, r) := takeCJK n cs
      (c :: g, r)
    else ([], c :: cs)

/-- Consume the optional trailing literal characters of a location pattern
(`地?区?` and `中?`), in order, each only if it is the next character. -/
def consumeOpt : List Char → List Char → List Char
  | [], r => r
  | sc :: rest, r =>
    match r with
    | [] => []
    | c :: cs => if c = sc then consumeOpt rest cs else consumeOpt rest (c :: cs)

/-- Try to match one location pattern (literal prefix, then 2–6 CJK
characters greedily, then the optional suffix characters) at the head of
the text; returns the captured group and the rest after the match. -/
def tryPat (pre sufs cs : List Char) : Option (List Char × List Char) :=
  if isPre pre cs then
    let cs1 := cs.drop pre.length
    let (g, r1) := takeCJK 6 cs1
    if 2 ≤ g.length then some (g, consumeOpt sufs r1) else none
  else none

/-- Fuel-bounded scan implementing `re.findall` for one location pattern:
leftmost, non-overlapping matches; on failure advance one character. The
fuel is the text length, which suffices because every step consumes at
least one character. -/
def scanPatAux (pre sufs : List Char) : Nat → List Char → List (List Char)
  | 0, _ => []
  | _ + 1, [] => []
  | fuel + 1, c :: cs =>
    match tryPat pre sufs (c :: cs) with
    | some (g, r) => g :: scanPatAux pre sufs fuel r
    | none => scanPatAux pre sufs fuel cs

/-- All group captures of one location pattern over the text. -/
def scanPat (pre sufs : List Char) (cs : List Char) : List (List Char) :=
  scanPatAux pre sufs cs.length cs

/-- The candidate location names of `_extract_locations`: the four fixed
patterns, deduplicated (the source collects them into a `set`; we keep
first-occurrence order as the canonical iteration order). -/
def locations_found (content : String) : List String :=
  let cs := content.toList
  let all := scanPat "在".toList "地区".toList cs ++ scanPat "来到".toList [] cs ++
    scanPat "位于".toList [] cs ++ scanPat [] "中".toList cs
  ((all.filter (fun m => 2 ≤ m.length)).map String.mk).dedup

/-- `SmartMemory._extract_locations`: create a location record on first
sight, otherwise bump `last_appearance` and `appearance_count`. -/
def extract_locations (content : String) (chapter_number : Nat) (now : String)
    (locations : List (String × LocationData)) : List (String × LocationData) :=
  (locations_found content).foldl (fun l loc_name =>
    match alGet loc_name l with
    | none => alSet loc_name
        { name := loc_name, first_appearance := chapter_number,
          last_appearance := chapter_number, appearance_count := 1,
          description := "在" ++ loc_name ++ "发生的事件", created_at := now } l
    | some d => alSet loc_name
        { d with last_appearance := chapter_number,
                 appearance_count := d.appearance_count + 1 } l) locations

/-- Body of the character-development loop of `update_with_chapter`: known
characters get `last_appearance` set and one history entry appended;
unknown names are silently ignored. -/
def dev_update_step (now : String) (chapter_number : Nat)
    (chars : List (String × CharData)) (p : String × String) : List (String × CharData) :=
  match alGet p.1 chars with
  | some c => alSet p.1
      { c with
        last_appearance := chapter_number
        development_history := c.development_history ++ [⟨chapter_number, p.2, now⟩] } chars
  | none => chars

/-- The summary record `update_with_chapter` stores: the provided summary
if non-empty, otherwise the content truncated to 200 characters with an
ellipsis. -/
def make_chapter_summary (now : String) (chapter_number : Nat)
    (chapter_data : ChapterInput) : ChapterSummary :=
  let summary :=
    if chapter_data.summary ≠ "" then chapter_data.summary
    else if 200 < chapter_data.content.length then chapter_data.content.take 200 ++ "..."
    else chapter_data.content
  { summary := summary, chapter_number := chapter_number,
    word_count := chapter_data.content.length,
    key_events := chapter_data.key_events, timestamp := now }

/-- `SmartMemory.update_with_chapter` (the in-memory effect; the trailing
`_save_to_disk` does not change the state). -/
def update_with_chapter (now : String) (chapter_number : Nat) (chapter_data : ChapterInput)
    (s : MemoryState) : MemoryState :=
  let s1 :=
    { s with
      chapter_summaries :=
        alSet chapter_number (SummaryVal.record (make_chapter_summary now chapter_number chapter_data))
          s.chapter_summaries }
  let s2 :=
    { s1 with
      characters :=
        chapter_data.character_development.foldl (dev_update_step now chapter_number)
          s1.characters }
  let s3 :=
    { s2 with
      timeline :=
        s2.timeline ++ chapter_data.key_events.map
          (fun e => TimelineEvent.mk chapter_number e now "chapter_event") }
  let s4 :=
    { s3 with
      locations := extract_locations chapter_data.content chapter_number now s3.locations }
  let s5 :=
    { s4 with
      plots := extract_plots now chapter_data.key_events chapter_number s4.plots }
  let s6 :=
    { s5 with
      relationship_graph :=
        update_relationships (s5.characters.map Prod.fst) chapter_data.content chapter_number
          s5.relationship_graph }
  s6

/-- `SmartMemory.save_chapter_plan`: stores the plan under the
`chapter_plan` key of the core settings (plus a disk flush that does not
change the in-memory state). -/
def save_chapter_plan (chapter_plan : List PlanEntry) (s : MemoryState) : MemoryState :=
  { s with core_settings := { s.core_settings with chapter_plan := some chapter_plan } }

/-- The FIRST `get_chapter_plan` definition in the source (line 225):
reads the stored plan back (`core_settings.get('chapter_plan', [])`).
In Python the later definition of the same name shadows this one, so this
method is never callable on the class. -/
def get_chapter_plan_first_def (s : MemoryState) : List PlanEntry :=
  s.core_settings.chapter_plan.getD []

/-- The target word count read by the effective `get_chapter_plan`
(`core_settings.get('outline', {}).get('target_words', 100000)`). -/
def plan_target_words (s : MemoryState) : Nat :=
  match s.core_settings.outline with
  | some o => o.target_words.getD 100000
  | none => 100000

/-- The SECOND (effective) `get_chapter_plan` definition (line 728): the
one Python keeps. It ignores any stored `chapter_plan` and recomputes a
plan of `max 10 (target_words // 3000)` entries from the outline. -/
def get_chapter_plan (s : MemoryState) : List PlanEntry :=
  let target_words := plan_target_words s
  let estimated_chapters := max 10 (target_words / 3000)
  (List.range estimated_chapters).map (fun i0 =>
    let i : Nat := i0 + 1
    let act :=
      if (i : ℚ) ≤ (estimated_chapters : ℚ) * (3/10) then "第一幕：建立"
      else if (i : ℚ) ≤ (estimated_chapters : ℚ) * (7/10) then "第二幕：对抗"
      else "第三幕：解决"
    let status := if (alGet i s.chapter_summaries).isSome then "已完成" else "待生成"
    let summary :=
      match alGet i s.chapter_summaries with
      | some (SummaryVal.record r) => r.summary
      | some (SummaryVal.txt t) => t
      | none => ""
    { chapter := i, act := act, target_word_count := 3000, status := status,
      summary_excerpt := if 100 < summary.length then summary.take 100 ++ "..." else summary })

/-- The dict keys of a stored chapter-summary record: `name in summary`
on a dict value tests key membership. -/
def summary_dict_keys : List String :=
  ["summary", "chapter_number", "word_count", "key_events", "timestamp"]

/-- Python truthiness plus `character_name in summary` for one looked-up
summary value (`in` is key membership on a dict, substring on a string). -/
def summary_mentions (character_name : String) : Option SummaryVal → Bool
  | none => false
  | some (SummaryVal.txt t) => !(t = "") && strIn character_name t
  | some (SummaryVal.record _) => summary_dict_keys.contains character_name

/-- `SmartMemory._count_character_mentions`: mentions over the window
`range(max(1, up_to_chapter - 5), up_to_chapter)`. -/
def count_character_mentions (chapter_summaries : List (Nat × SummaryVal))
    (character_name : String) (up_to_chapter : Nat) : Nat :=
  let start := max 1 (up_to_chapter - 5)
  ((List.range' start (up_to_chapter - start)).filter
    (fun chap_num => summary_mentions character_name (alGet chap_num chapter_summaries))).length

/-- `SmartMemory._calculate_character_relevance` over the fields it reads
(`characters` and `chapter_summaries`); `h` embeds the md5-derived
integer of `f"{character_name}_{chapter_number}"`. -/
def calculate_relevance_core (h : String → Nat) (characters : List (String × CharData))
    (chapter_summaries : List (Nat × SummaryVal)) (character_name : String)
    (chapter_number : Nat) : ℚ :=
  match alGet character_name characters with
  | none => 0
  | some char_data =>
    let importance := char_data.importance.getD 5
    let rel1 : ℚ := (importance : ℚ) * (1/20)
    let rel2 := rel1 +
      (if 0 < char_data.last_appearance then
        (let chapters_since : Int := (chapter_number : Int) - (char_data.last_appearance : Int)
         if chapters_since ≤ 3 then (3/10 : ℚ)
         else if chapters_since ≤ 10 then (1/10 : ℚ) else 0)
      else 0)
    let rel3 := rel2 +
      (if char_data.development_history ≠ [] then
        min (1/5 : ℚ) ((char_data.development_history.length : ℚ) * (1/50))
      else 0)
    let hash_val := h (character_name ++ "_" ++ toString chapter_number)
    let hash_score : ℚ := ((hash_val % 100 : ℕ) : ℚ) / 100
    let recent_mentions := count_character_mentions chapter_summaries character_name chapter_number
    let rel5 := rel3 + min (1/5 : ℚ) ((recent_mentions : ℚ) * (1/20))
    min 1 (rel5 + hash_score * (1/5))

/-- `SmartMemory._calculate_character_relevance` as a method of the state. -/
def calculate_character_relevance (h : String → Nat) (s : MemoryState)
    (character_name : String) (chapter_number : Nat) : ℚ :=
  calculate_relevance_core h s.characters s.chapter_summaries character_name chapter_number

/-- Rule 2 of `_get_relevant_characters` for chapters 1–3: include
importance ≥ 6, stop (break) once 5 characters are selected; the break
sits inside the insertion branch. -/
def relevant_rule2_early (acc : List (String × CharData)) :
    List (String × CharData) → List (String × CharData)
  | [] => acc
  | p :: rest =>
    if 6 ≤ p.2.importance.getD 0 && !((alGet p.1 acc).isSome) then
      let acc' := alSet p.1 p.2 acc
      if 5 ≤ acc'.length then acc' else relevant_rule2_early acc' rest
    else relevant_rule2_early acc rest

/-- Rule 2 of `_get_relevant_characters` for later chapters: include when
the relevance score is ≥ 0.3 or importance ≥ 7; the break (cap 8) is
checked on every iteration. -/
def relevant_rule2_late (h : String → Nat) (characters : List (String × CharData))
    (chapter_summaries : List (Nat × SummaryVal)) (chapter_number : Nat)
    (acc : List (String × CharData)) :
    List (String × CharData) → List (String × CharData)
  | [] => acc
  | p :: rest =>
    let relevance_score :=
      calculate_relevance_core h characters chapter_summaries p.1 chapter_number
    let acc' :=
      if (3/10 : ℚ) ≤ relevance_score || 7 ≤ p.2.importance.getD 0 then alSet p.1 p.2 acc
      else acc
    if 8 ≤ acc'.length then acc'
    else relevant_rule2_late h characters chapter_summaries chapter_number acc' rest

/-- `SmartMemory._get_relevant_characters` over the fields it reads. -/
def get_relevant_characters_core (h : String → Nat) (characters : List (String × CharData))
    (chapter_summaries : List (Nat × SummaryVal)) (chapter_number : Nat) :
    List (String × CharData) :=
  let rule1 := characters.foldl (fun acc p =>
    if strIn "主角" p.1 || 8 ≤ p.2.importance.getD 0 then alSet p.1 p.2 acc else acc) []
  if chapter_number ≤ 3 then relevant_rule2_early rule1 characters
  else relevant_rule2_late h characters chapter_summaries chapter_number rule1 characters

/-- `SmartMemory._get_relevant_characters` as a method of the state. -/
def get_relevant_characters (h : String → Nat) (s : MemoryState) (chapter_number : Nat) :
    List (String × CharData) :=
  get_relevant_characters_core h s.characters s.chapter_summaries chapter_number

/-- The whole-store export payload consumed by `import_memory`: each
category may be present or absent. -/
structure ImportData where
  core_settings : Option CoreSettings
  characters : Option (List (String × CharData))
  worldview : Option (List (String × String))
  chapter_summaries : Option (List (Nat × SummaryVal))
  timeline : Option (List TimelineEvent)
  plots : Option (List Plot)
  locations : Option (List (String × LocationData))
deriving Repr, DecidableEq

/-- `SmartMemory.import_memory`: validates that the four mandatory
categories are present before any assignment; on success replaces the
mandatory categories and defaults the optional ones, leaving the
relationship graph untouched. Returns the success flag and the state. -/
def import_memory (s : MemoryState) (d : ImportData) : Bool × MemoryState :=
  match d.core_settings, d.characters, d.worldview, d.chapter_summaries with
  | some cs, some ch, some wv, some sums =>
    (true,
      { s with
        core_settings := cs
        characters := ch
        worldview := wv
        chapter_summaries := sums
        timeline := d.timeline.getD []
        plots := d.plots.getD []
        locations := d.locations.getD [] })
  | _, _, _, _ => (false, s)

/-- The write categories of `_save_to_disk`, in source order. -/
inductive SaveCategory where
  | core_settings
  | characters
  | summaries
  | worldview
  | timeline
  | plots
  | locations
deriving Repr, DecidableEq

/-- The order in which `_save_to_disk` writes its categories. -/
def save_order : List SaveCategory :=
  [SaveCategory.core_settings, SaveCategory.characters, SaveCategory.summaries,
   SaveCategory.worldview, SaveCategory.timeline, SaveCategory.plots, SaveCategory.locations]

/-- Sequential category writes under one `try`: the first raised exception
jumps to the `except` handler, skipping every later write. Returns the
success flag and the categories actually written. -/
def save_to_disk_loop (fails : SaveCategory → Bool) :
    List SaveCategory → List SaveCategory → Bool × List SaveCategory
  | [], written => (true, written)
  | c :: rest, written =>
    if fails c then (false, written)
    else save_to_disk_loop fails rest (written ++ [c])

/-- `SmartMemory._save_to_disk`: the whole body is a single `try/except`,
modelled over an abstract failure predicate saying which category's write
raises; returns `True` only when every category write succeeded. -/
def save_to_disk (fails : SaveCategory → Bool) : Bool × List SaveCategory :=
  save_to_disk_loop fails save_order []

/-- A concrete plot thread used in the `_extract_plots` scenario. -/
def sample_plot : Plot :=
  { name := "旧情节线", start_chapter := 1, end_chapter := 1, keywords := ["事件"],
    chapters := [1], created_at := "t0", last_updated := none, current_status := "进行中" }

/-- Invariant of the composite check: the running score is below the score
of every recorded check that failed. -/
def failed_le (r : CompositeResult) : Prop :=
  ∀ e ∈ r.detailed_checks, e.2.passed = false → r.score ≤ e.2.score

/-- The trait check deducts exactly 30 points or nothing. -/
theorem check_character_consistency_score (n c : String) (p : Profile) :
    (check_character_consistency n c p).score = 70 ∨
      (check_character_consistency n c p).score = 100 := by
  unfold check_character_consistency
  simp only [apply_ite CheckResult.score]
  split_ifs <;> simp

/-- `_check_logical_issues` reports at most 4 issues. -/
theorem check_logical_issues_length (c : String) : (check_logical_issues c).length ≤ 4 := by
  unfold check_logical_issues
  have h := List.length_filter_le
    (fun p : String × String => strIn p.1 c && strIn p.2 c) [("死", "活"), ("有", "无"), ("存在", "不存在")]
  simp at h
  simp only [List.length_append, List.length_map]
  split_ifs <;> simp <;> omega

/-- The plot check's score stays within `[40, 100]`. -/
theorem check_plot_consistency_score (c : String) (ps : List String) :
    40 ≤ (check_plot_consistency c ps).score ∧ (check_plot_consistency c ps).score ≤ 100 := by
  unfold check_plot_consistency
  have h := check_logical_issues_length c
  simp only [apply_ite CheckResult.score]
  split_ifs <;> simp <;> omega

/-- The worldview check never deducts: its score is 100. -/
theorem check_worldview_consistency_score (c : String) (w : Worldview) :
    (check_worldview_consistency c w).score = 100 := by
  unfold check_worldview_consistency
  simp only [apply_ite CheckResult.score]
  split_ifs <;> simp

/-- Behaviour of one character-loop step: the score never increases, stays
nonnegative, at most one `character_`-tagged entry is appended, and the
`failed_le` invariant is preserved. -/
theorem composite_char_step_spec (content : String) (r : CompositeResult) (ch : Profile) :
    ((composite_char_step content r ch).score ≤ r.score) ∧
    (0 ≤ r.score → 0 ≤ (composite_char_step content r ch).score) ∧
    ((composite_char_step content r ch).detailed_checks = r.detailed_checks ∨
      ∃ cr, (composite_char_step content r ch).detailed_checks
        = r.detailed_checks ++ [("character_" ++ ch.name, cr)]) ∧
    (failed_le r → failed_le (composite_char_step content r ch)) := by
  unfold composite_char_step
  by_cases hm : strIn ch.name content = true
  · simp only [hm, if_true]
    set cr := check_character_consistency ch.name content ch with hcr
    have hcs : 0 ≤ cr.score := by
      rcases check_character_consistency_score ch.name content ch with h | h <;>
        rw [hcr, h] <;> norm_num
    by_cases hp : cr.passed = true
    · simp only [hp, Bool.not_true, Bool.false_eq_true, if_false]
      refine ⟨le_refl _, fun h => h, Or.inr ⟨cr, rfl⟩, ?_⟩
      intro hf e he hep
      rcases List.mem_append.mp he with h | h
      · exact hf e h hep
      · simp at h
        subst h
        simp only [hp] at hep
        exact absurd hep (by simp)
    · have hp' : cr.passed = false := by
        cases hb : cr.passed
        · rfl
        · exact absurd hb hp
      simp only [hp', Bool.not_false, if_true]
      refine ⟨min_le_left _ _, fun h => le_min h hcs, Or.inr ⟨cr, rfl⟩, ?_⟩
      intro hf e he _
      rcases List.mem_append.mp he with h | h
      · exact le_trans (min_le_left _ _) (hf e h (by assumption))
      · simp at h
        subst h
        exact min_le_right _ _
  · simp only [hm, if_false]
    exact ⟨le_refl _, fun h => h, Or.inl rfl, fun h => h⟩

/-- Behaviour of the whole character loop (fold of `composite_char_step`). -/
theorem composite_char_fold_spec (content : String) (chars : List Profile) :
    ∀ r : CompositeResult,
      ((chars.foldl (composite_char_step content) r).score ≤ r.score) ∧
      (0 ≤ r.score → 0 ≤ (chars.foldl (composite_char_step content) r).score) ∧
      (∃ l, (chars.foldl (composite_char_step content) r).detailed_checks
          = r.detailed_checks ++ l ∧ ∀ e ∈ l, ∃ nm, e.1 = "character_" ++ nm) ∧
      (failed_le r → failed_le (chars.foldl (composite_char_step content) r)) := by
  induction chars with
  | nil =>
    intro r
    exact ⟨le_refl _, fun h => h, ⟨[], by simp, by simp⟩, fun h => h⟩
  | cons c rest ih =>
    intro r
    have hs := composite_char_step_spec content r c
    have hr := ih (composite_char_step content r c)
    simp only [List.foldl_cons]
    refine ⟨le_trans hr.1 hs.1, fun h0 => hr.2.1 (hs.2.1 h0), ?_, fun hf => hr.2.2.2 (hs.2.2.2 hf)⟩
    obtain ⟨l1, hl1, hc1⟩ := hr.2.2.1
    rcases hs.2.2.1 with h | ⟨cr, hcr⟩
    · exact ⟨l1, by rw [hl1, h], hc1⟩
    · refine ⟨("character_" ++ c.name, cr) :: l1, by rw [hl1, hcr]; simp, ?_⟩
      intro e he
      rcases List.mem_cons.mp he with h | h
      · exact ⟨c.name, by rw [h]⟩
      · exact hc1 e h

/-- Behaviour of the plot step: score never increases, stays nonnegative,
one `plot`-tagged entry is appended, `failed_le` is preserved. -/
theorem composite_plot_step_spec (content : String) (ps : List String) (r : CompositeResult) :
    ((composite_plot_step content ps r).score ≤ r.score) ∧
    (0 ≤ r.score → 0 ≤ (composite_plot_step content ps r).score) ∧
    ((composite_plot_step content ps r).detailed_checks
      = r.detailed_checks ++ [("plot", check_plot_consistency content ps)]) ∧
    (failed_le r → failed_le (composite_plot_step content ps r)) := by
  unfold composite_plot_step
  set pr := check_plot_consistency content ps with hpr
  have hps : 0 ≤ pr.score := le_trans (by norm_num) (check_plot_consistency_score content ps).1
  by_cases hp : pr.passed = true
  · simp only [hp, Bool.not_true, Bool.false_eq_true, if_false]
    refine ⟨le_refl _, fun h => h, by trivial, ?_⟩
    intro hf e he hep
    rcases List.mem_append.mp he with h | h
    · exact hf e h hep
    · simp at h
      subst h
      simp only [hp] at hep
      exact absurd hep (by simp)
  · have hp' : pr.passed = false := by
      cases hb : pr.passed
      · rfl
      · exact absurd hb hp
    simp only [hp', Bool.not_false, if_true]
    refine ⟨min_le_left _ _, fun h => le_min h hps, by trivial, ?_⟩
    intro hf e he _
    rcases List.mem_append.mp he with h | h
    · exact le_trans (min_le_left _ _) (hf e h (by assumption))
    · simp at h
      subst h
      exact min_le_right _ _

/-- Behaviour of the worldview step: score never increases, stays
nonnegative, one `worldview`-tagged entry is appended, `failed_le` is
preserved. -/
theorem composite_worldview_step_spec (content : String) (wv : Worldview) (r : CompositeResult) :
    ((composite_worldview_step content wv r).score ≤ r.score) ∧
    (0 ≤ r.score → 0 ≤ (composite_worldview_step content wv r).score) ∧
    ((composite_worldview_step content wv r).detailed_checks
      = r.detailed_checks ++ [("worldview", check_worldview_consistency content wv)]) ∧
    (failed_le r → failed_le (composite_worldview_step content wv r)) := by
  unfold composite_worldview_step
  set wr := check_worldview_consistency content wv with hwr
  have hws : 0 ≤ wr.score := by rw [hwr, check_worldview_consistency_score]; norm_num
  by_cases hp : wr.passed = true
  · simp only [hp, Bool.not_true, Bool.false_eq_true, if_false]
    refine ⟨le_refl _, fun h => h, by trivial, ?_⟩
    intro hf e he hep
    rcases List.mem_append.mp he with h | h
    · exact hf e h hep
    · simp at h
      subst h
      simp only [hp] at hep
      exact absurd hep (by simp)
  · have hp' : wr.passed = false := by
      cases hb : wr.passed
      · rfl
      · exact absurd hb hp
    simp only [hp', Bool.not_false, if_true]
    refine ⟨min_le_left _ _, fun h => le_min h hws, by trivial, ?_⟩
    intro hf e he _
    rcases List.mem_append.mp he with h | h
    · exact le_trans (min_le_left _ _) (hf e h (by assumption))
    · simp at h
      subst h
      exact min_le_right _ _

/-- A `character_`-prefixed tag is neither `plot` nor `worldview`. -/
theorem character_tag_ne (nm : String) :
    ("character_" ++ nm) ≠ "plot" ∧ ("character_" ++ nm) ≠ "worldview" := by
  have h10 : ("character_" : String).length = 10 := rfl
  have h4 : ("plot" : String).length = 4 := rfl
  have h9 : ("worldview" : String).length = 9 := rfl
  constructor <;> intro h <;> (
    have hl := congrArg String.length h
    rw [String.length_append, h10] at hl
    simp only [h4, h9] at hl
    omega)

/-- Combined behaviour of the composite chapter check: every recorded
entry comes from a context category that was present, the `failed_le`
invariant holds, and the score lies in `[0, 100]`. -/
theorem check_chapter_consistency_props (cd : ChapterData) (ctx : ChapterContext) :
    (∀ e ∈ (check_chapter_consistency cd ctx).detailed_checks,
      ((∃ nm, e.1 = "character_" ++ nm) ∧ ctx.characters ≠ none) ∨
      (e.1 = "plot" ∧ ctx.previous_summaries ≠ none) ∨
      (e.1 = "worldview" ∧ ctx.worldview ≠ none)) ∧
    failed_le (check_chapter_consistency cd ctx) ∧
    0 ≤ (check_chapter_consistency cd ctx).score ∧
    (check_chapter_consistency cd ctx).score ≤ 100 := by
  obtain ⟨oc, ops, owv⟩ := ctx
  have hbase : failed_le ⟨true, 100, [], [], []⟩ := by
    intro e he _
    exact absurd he (by simp)
  cases oc <;> cases ops <;> cases owv <;>
    simp only [check_chapter_consistency]
  case none.none.none =>
    exact ⟨fun e he => absurd he (by simp), hbase, by norm_num, by norm_num⟩
  case none.none.some wv =>
    obtain ⟨s3, n3, h3, f3⟩ := composite_worldview_step_spec cd.content wv ⟨true, 100, [], [], []⟩
    refine ⟨?_, f3 hbase, n3 (by norm_num), le_trans s3 (by norm_num)⟩
    intro e he
    rw [h3] at he
    simp at he
    exact Or.inr (Or.inr ⟨by rw [he], by simp⟩)
  case none.some.none ps =>
    obtain ⟨s2, n2, h2, f2⟩ := composite_plot_step_spec cd.content ps ⟨true, 100, [], [], []⟩
    refine ⟨?_, f2 hbase, n2 (by norm_num), le_trans s2 (by norm_num)⟩
    intro e he
    rw [h2] at he
    simp at he
    exact Or.inr (Or.inl ⟨by rw [he], by simp⟩)
  case none.some.some ps wv =>
    obtain ⟨s2, n2, h2, f2⟩ := composite_plot_step_spec cd.content ps ⟨true, 100, [], [], []⟩
    obtain ⟨s3, n3, h3, f3⟩ :=
      composite_worldview_step_spec cd.content wv
        (composite_plot_step cd.content ps ⟨true, 100, [], [], []⟩)
    refine ⟨?_, f3 (f2 hbase), n3 (n2 (by norm_num)), le_trans s3 (le_trans s2 (by norm_num))⟩
    intro e he
    rw [h3, h2] at he
    simp at he
    rcases he with he | he
    · exact Or.inr (Or.inl ⟨by rw [he], by simp⟩)
    · exact Or.inr (Or.inr ⟨by rw [he], by simp⟩)
  case some.none.none chars =>
    obtain ⟨s1, n1, ⟨l1, hl1, hc1⟩, f1⟩ :=
      (composite_char_fold_spec cd.content chars) ⟨true, 100, [], [], []⟩
    refine ⟨?_, f1 hbase, n1 (by norm_num), le_trans s1 (by norm_num)⟩
    intro e he
    rw [hl1] at he
    simp at he
    exact Or.inl ⟨hc1 e he, by simp⟩
  case some.none.some chars wv =>
    obtain ⟨s1, n1, ⟨l1, hl1, hc1⟩, f1⟩ :=
      (composite_char_fold_spec cd.content chars) ⟨true, 100, [], [], []⟩
    obtain ⟨s3, n3, h3, f3⟩ :=
      composite_worldview_step_spec cd.content wv
        (List.foldl (composite_char_step cd.content) ⟨true, 100, [], [], []⟩ chars)
    refine ⟨?_, f3 (f1 hbase), n3 (n1 (by norm_num)), le_trans s3 (le_trans s1 (by norm_num))⟩
    intro e he
    rw [h3, hl1] at he
    simp at he
    rcases he with he | he
    · exact Or.inl ⟨hc1 e he, by simp⟩
    · exact Or.inr (Or.inr ⟨by rw [he], by simp⟩)
  case some.some.none chars ps =>
    obtain ⟨s1, n1, ⟨l1, hl1, hc1⟩, f1⟩ :=
      (composite_char_fold_spec cd.content chars) ⟨true, 100, [], [], []⟩
    obtain ⟨s2, n2, h2, f2⟩ :=
      composite_plot_step_spec cd.content ps
        (List.foldl (composite_char_step cd.content) ⟨true, 100, [], [], []⟩ chars)
    refine ⟨?_, f2 (f1 hbase), n2 (n1 (by norm_num)), le_trans s2 (le_trans s1 (by norm_num))⟩
    intro e he
    rw [h2, hl1] at he
    simp at he
    rcases he with he | he
    · exact Or.inl ⟨hc1 e he, by simp⟩
    · exact Or.inr (Or.inl ⟨by rw [he], by simp⟩)
  case some.some.some chars ps wv =>
    obtain ⟨s1, n1, ⟨l1, hl1, hc1⟩, f1⟩ :=
      (composite_char_fold_spec cd.content chars) ⟨true, 100, [], [], []⟩
    obtain ⟨s2, n2, h2, f2⟩ :=
      composite_plot_step_spec cd.content ps
        (List.foldl (composite_char_step cd.content) ⟨true, 100, [], [], []⟩ chars)
    obtain ⟨s3, n3, h3, f3⟩ :=
      composite_worldview_step_spec cd.content wv
        (composite_plot_step cd.content ps
          (List.foldl (composite_char_step cd.content) ⟨true, 100, [], [], []⟩ chars))
    refine ⟨?_, f3 (f2 (f1 hbase)), n3 (n2 (n1 (by norm_num))),
      le_trans s3 (le_trans s2 (le_trans s1 (by norm_num)))⟩
    intro e he
    rw [h3, h2, hl1] at he
    simp at he
    rcases he with he | he | he
    · exact Or.inl ⟨hc1 e he, by simp⟩
    · exact Or.inr (Or.inl ⟨by rw [he], by simp⟩)
    · exact Or.inr (Or.inr ⟨by rw [he], by simp⟩)

/-- A left fold of addition over nonnegative elements is at least its seed. -/
theorem foldl_add_lb (l : List Int) :
    ∀ init : Int, (∀ x ∈ l, 0 ≤ x) → init ≤ l.foldl (· + ·) init := by
  induction l with
  | nil => intro init _; simp
  | cons a t ih =>
    intro init h
    simp only [List.foldl_cons]
    have hrec := ih (init + a) (fun x hx => h x (by simp [hx]))
    have ha := h a (by simp)
    omega

/-- A left fold of addition over elements bounded by 100 is bounded by the
seed plus 100 per element. -/
theorem foldl_add_ub (l : List Int) :
    ∀ init : Int, (∀ x ∈ l, x ≤ 100) → l.foldl (· + ·) init ≤ init + 100 * (l.length : Int) := by
  induction l with
  | nil => intro init _; simp
  | cons a t ih =>
    intro init h
    simp only [List.foldl_cons, List.length_cons]
    have hrec := ih (init + a) (fun x hx => h x (by simp [hx]))
    have ha := h a (by simp)
    have hc : ((t.length + 1 : Nat) : Int) = (t.length : Int) + 1 := by push_cast; ring
    rw [hc]
    omega

/-- The integer-division average of a nonempty list of values in
`[0, 100]` is itself in `[0, 100]`. -/
theorem avg_fdiv_bounds (l : List Int) (h : ∀ x ∈ l, 0 ≤ x ∧ x ≤ 100) (hne : l ≠ []) :
    0 ≤ (l.foldl (· + ·) 0).fdiv (l.length : Int) ∧
      (l.foldl (· + ·) 0).fdiv (l.length : Int) ≤ 100 := by
  have hlen : (0 : Int) < (l.length : Int) := by
    have := List.length_pos.mpr hne
    omega
  have hsumlb : (0 : Int) ≤ l.foldl (· + ·) 0 := foldl_add_lb l 0 (fun x hx => (h x hx).1)
  have hsumub : l.foldl (· + ·) 0 ≤ 100 * (l.length : Int) := by
    have h2 := foldl_add_ub l 0 (fun x hx => (h x hx).2)
    omega
  rw [Int.fdiv_eq_ediv _ (le_of_lt hlen)]
  refine ⟨Int.ediv_nonneg hsumlb (le_of_lt hlen), ?_⟩
  have h3 : (l.foldl (· + ·) 0) / (l.length : Int) ≤ (100 * (l.length : Int)) / (l.length : Int) :=
    Int.ediv_le_ediv hlen hsumub
  have h4 : (100 * (l.length : Int)) / (l.length : Int) = 100 :=
    Int.mul_ediv_cancel 100 (by omega)
  omega

/-- For a nonnegative rational, Python truncation agrees with the floor,
and a value in `[0, 100]` truncates into `[0, 100]`. -/
theorem pyInt_nonneg_le (q : ℚ) (h0 : 0 ≤ q) (h100 : q ≤ 100) :
    0 ≤ pyInt q ∧ pyInt q ≤ 100 := by
  have hnum : 0 ≤ q.num := Rat.num_nonneg.mpr h0
  have hden : (0 : Int) ≤ (q.den : Int) := by omega
  have heq : pyInt q = ⌊q⌋ := by
    unfold pyInt
    rw [← Int.fdiv_eq_tdiv hnum hden, Int.fdiv_eq_ediv _ hden, Rat.floor_def]
  rw [heq]
  refine ⟨Int.floor_nonneg.mpr h0, ?_⟩
  have h := Int.floor_le_floor h100
  simpa using h

/-- The aggregate check leaves the worldview/timeline components at 0 and
the weighted sum collapses to `(3·character + 4·plot)/10`. -/
theorem full_check_overall_eq (characters : List Profile) (chapters : List (Nat × ChapterData)) :
    (full_consistency_check characters chapters).worldview_score = 0 ∧
    (full_consistency_check characters chapters).timeline_score = 0 ∧
    (full_consistency_check characters chapters).overall_score =
      pyInt ((3 * ((full_consistency_check characters chapters).character_score : ℚ) +
        4 * ((full_consistency_check characters chapters).plot_score : ℚ)) / 10) := by
  refine ⟨rfl, rfl, ?_⟩
  unfold full_consistency_check
  dsimp only
  congr 1
  simp only [List.zip_cons_cons, List.zip_nil_right, List.zip_nil_left, List.map_cons,
    List.map_nil, List.foldl_cons, List.foldl_nil]
  push_cast
  ring

/-- All five score fields of the aggregate check lie in `[0, 100]`. -/
theorem full_check_bounds (characters : List Profile) (chapters : List (Nat × ChapterData)) :
    (0 ≤ (full_consistency_check characters chapters).character_score ∧
      (full_consistency_check characters chapters).character_score ≤ 100) ∧
    (0 ≤ (full_consistency_check characters chapters).plot_score ∧
      (full_consistency_check characters chapters).plot_score ≤ 100) ∧
    (0 ≤ (full_consistency_check characters chapters).overall_score ∧
      (full_consistency_check characters chapters).overall_score ≤ 100) := by
  have hchar : 0 ≤ (full_consistency_check characters chapters).character_score ∧
      (full_consistency_check characters chapters).character_score ≤ 100 := by
    unfold full_consistency_check
    dsimp only
    split_ifs with h
    · apply avg_fdiv_bounds
      · intro x hx
        simp only [List.mem_map, List.mem_flatten] at hx
        obtain ⟨r, ⟨lr, hlr, hrin⟩, hxr⟩ := hx
        obtain ⟨character, -, hf⟩ := hlr
        subst hf
        obtain ⟨cd, _, hr⟩ := List.mem_map.mp hrin
        subst hr
        subst hxr
        rcases check_character_consistency_score character.name cd.2.content character with
          hs | hs <;> rw [hs] <;> norm_num
      · exact fun hnil => h (by rw [hnil])
    · norm_num
  have hplot : 0 ≤ (full_consistency_check characters chapters).plot_score ∧
      (full_consistency_check characters chapters).plot_score ≤ 100 := by
    unfold full_consistency_check
    dsimp only
    split_ifs with h
    · apply avg_fdiv_bounds
      · intro x hx
        simp only [List.mem_map] at hx
        obtain ⟨r, ⟨pr, _, hr⟩, hxr⟩ := hx
        subst hr
        subst hxr
        have hb := check_plot_consistency_score
          (chapLookup chapters pr.2).content [(chapLookup chapters pr.1).summary]
        exact ⟨le_trans (by norm_num) hb.1, hb.2⟩
      · exact fun hnil => h (by rw [hnil])
    · norm_num
  refine ⟨hchar, hplot, ?_⟩
  obtain ⟨-, -, hov⟩ := full_check_overall_eq characters chapters
  rw [hov]
  apply pyInt_nonneg_le
  · have c1 : (0 : ℚ) ≤ ((full_consistency_check characters chapters).character_score : ℚ) := by
      exact_mod_cast hchar.1
    have p1 : (0 : ℚ) ≤ ((full_consistency_check characters chapters).plot_score : ℚ) := by
      exact_mod_cast hplot.1
    positivity
  · have c2 : ((full_consistency_check characters chapters).character_score : ℚ) ≤ 100 := by
      exact_mod_cast hchar.2
    have p2 : ((full_consistency_check characters chapters).plot_score : ℚ) ≤ 100 := by
      exact_mod_cast hplot.2
    have c1 : (0 : ℚ) ≤ ((full_consistency_check characters chapters).character_score : ℚ) := by
      exact_mod_cast hchar.1
    have p1 : (0 : ℚ) ≤ ((full_consistency_check characters chapters).plot_score : ℚ) := by
      exact_mod_cast hplot.1
    linarith

/-- Python truncation of a natural number literal embedded in `ℚ`. -/
theorem pyInt_natCast (n : ℕ) : pyInt (n : ℚ) = n := by
  unfold pyInt
  simp [Rat.num_natCast, Rat.den_natCast]

/-- Concrete evaluation of the plot check: continuity deducts 20 points
but leaves `passed` true. -/
theorem plot_check_low_continuity_eval : check_plot_consistency "新章节" ["战斗结束"] =
    { passed := true, score := 80, issues := ["情节连贯性较弱"],
      suggestions := ["考虑增加与上一章的连接"] } := by
  have h1 : extract_keywords "战斗结束" 10 = ["战斗结束"] := by decide
  have h2 : extract_keywords "新章节" 10 = ["新章节"] := by decide
  have h3 : check_logical_issues "新章节" = [] := by decide
  have h4 : calculate_continuity ["战斗结束"] ["新章节"] = 0 := by
    simp [calculate_continuity]
  simp [check_plot_consistency, h1, h2, h3, h4]

/-- C1: counterexample. On the empty project (no characters, no chapters)
there are no issues at all, so the claimed formula — worldview with no
issues contributing 0.2×100 and the timeline stub contributing 0.1×100 —
predicts an overall score of 30; the code leaves both components at their
initialized 0 and returns overall 0. -/
theorem full_check_claimed_weights_fail :
    (full_consistency_check [] []).overall_score = 0 ∧
      (full_consistency_check [] []).overall_score ≠
        pyInt ((3 * (0 : ℚ) + 4 * 0 + 2 * 100 + 1 * 100) / 10) := by
  have h : (full_consistency_check [] []).overall_score = 0 := by
    simp [full_consistency_check, pyInt, sortNats, adjacentPairs]
  refine ⟨h, ?_⟩
  rw [h]
  have h30 : ((3 * (0 : ℚ) + 4 * 0 + 2 * 100 + 1 * 100) / 10) = ((30 : ℕ) : ℚ) := by norm_num
  rw [h30, pyInt_natCast]
  decide

/-- C1 (amended): the aggregate overall score is the integer truncation of
0.3×character + 0.4×plot + 0.2×worldview + 0.1×timeline, but the worldview
and timeline components always remain at their initialized value 0 (the
source never computes them), so the overall score equals
⌊(3×character + 4×plot)/10⌋; in the claimed scenario (character 60, plot
90) this gives 54, not 84. -/
theorem full_check_weighted_sum (characters : List Profile) (chapters : List (Nat × ChapterData)) :
    (full_consistency_check characters chapters).worldview_score = 0 ∧
    (full_consistency_check characters chapters).timeline_score = 0 ∧
    (full_consistency_check characters chapters).overall_score =
      pyInt ((3 * ((full_consistency_check characters chapters).character_score : ℚ) +
        4 * ((full_consistency_check characters chapters).plot_score : ℚ)) / 10) :=
  full_check_overall_eq characters chapters

/-- C6: counterexample. With only `previous_summaries` in the context, the
plot check deducts 20 points (score 80) without being marked failed, and
the composite score stays 100 — strictly above the minimum score (80) of
the executed checks, contradicting the claimed "≤ minimum of all executed
checks" rule. -/
theorem composite_min_rule_fails :
    (check_chapter_consistency ⟨"新章节", ""⟩ ⟨none, some ["战斗结束"], none⟩).score = 100 ∧
    (check_chapter_consistency ⟨"新章节", ""⟩
        ⟨none, some ["战斗结束"], none⟩).detailed_checks.map (fun e => e.2.score) = [80] ∧
    ¬ (∀ e ∈ (check_chapter_consistency ⟨"新章节", ""⟩
          ⟨none, some ["战斗结束"], none⟩).detailed_checks,
        (check_chapter_consistency ⟨"新章节", ""⟩
          ⟨none, some ["战斗结束"], none⟩).score ≤ e.2.score) := by
  have hstep : check_chapter_consistency ⟨"新章节", ""⟩ ⟨none, some ["战斗结束"], none⟩ =
      CompositeResult.mk true 100
        [("plot", CheckResult.mk true 80 ["情节连贯性较弱"] ["考虑增加与上一章的连接"])] [] [] := by
    simp [check_chapter_consistency, composite_plot_step, plot_check_low_continuity_eval]
  rw [hstep]
  refine ⟨rfl, rfl, ?_⟩
  intro hall
  have h80 := hall ("plot", CheckResult.mk true 80 ["情节连贯性较弱"] ["考虑增加与上一章的连接"])
    (by simp)
  norm_num at h80

/-- C6 (amended): the composite chapter check runs only the axis checks
whose context category is present (absent categories are skipped), and its
overall score is bounded above by the score of every executed check that
was marked failed; checks that deducted points while still passing do not
bound it (see the counterexample). -/
theorem composite_check_spec (cd : ChapterData) (ctx : ChapterContext) :
    (ctx.characters = none → ∀ e ∈ (check_chapter_consistency cd ctx).detailed_checks,
      e.1 = "plot" ∨ e.1 = "worldview") ∧
    (ctx.previous_summaries = none → ∀ e ∈ (check_chapter_consistency cd ctx).detailed_checks,
      e.1 ≠ "plot") ∧
    (ctx.worldview = none → ∀ e ∈ (check_chapter_consistency cd ctx).detailed_checks,
      e.1 ≠ "worldview") ∧
    (∀ e ∈ (check_chapter_consistency cd ctx).detailed_checks,
      e.2.passed = false → (check_chapter_consistency cd ctx).score ≤ e.2.score) := by
  obtain ⟨htags, hfle, -, -⟩ := check_chapter_consistency_props cd ctx
  refine ⟨?_, ?_, ?_, hfle⟩
  · intro hc e he
    rcases htags e he with ⟨⟨nm, h⟩, hne⟩ | ⟨h, -⟩ | ⟨h, -⟩
    · exact absurd hc hne
    · exact Or.inl h
    · exact Or.inr h
  · intro hps e he
    rcases htags e he with ⟨⟨nm, h⟩, -⟩ | ⟨-, hne⟩ | ⟨h, -⟩
    · rw [h]; exact (character_tag_ne nm).1
    · exact absurd hps hne
    · rw [h]; decide
  · intro hwv e he
    rcases htags e he with ⟨⟨nm, h⟩, -⟩ | ⟨h, -⟩ | ⟨-, hne⟩
    · rw [h]; exact (character_tag_ne nm).2
    · rw [h]; decide
    · exact absurd hwv hne

/-- Witness for the composite-check theorem at a concrete chapter and
context (characters and worldview absent, one previous summary). -/
theorem composite_check_spec_witness :
    ((⟨none, some ["战斗结束"], none⟩ : ChapterContext).characters = none →
      ∀ e ∈ (check_chapter_consistency ⟨"新章节", ""⟩
          ⟨none, some ["战斗结束"], none⟩).detailed_checks,
        e.1 = "plot" ∨ e.1 = "worldview") ∧
    ((⟨none, some ["战斗结束"], none⟩ : ChapterContext).previous_summaries = none →
      ∀ e ∈ (check_chapter_consistency ⟨"新章节", ""⟩
          ⟨none, some ["战斗结束"], none⟩).detailed_checks,
        e.1 ≠ "plot") ∧
    ((⟨none, some ["战斗结束"], none⟩ : ChapterContext).worldview = none →
      ∀ e ∈ (check_chapter_consistency ⟨"新章节", ""⟩
          ⟨none, some ["战斗结束"], none⟩).detailed_checks,
        e.1 ≠ "worldview") ∧
    (∀ e ∈ (check_chapter_consistency ⟨"新章节", ""⟩
          ⟨none, some ["战斗结束"], none⟩).detailed_checks,
        e.2.passed = false →
          (check_chapter_consistency ⟨"新章节", ""⟩
            ⟨none, some ["战斗结束"], none⟩).score ≤ e.2.score) :=
  composite_check_spec ⟨"新章节", ""⟩ ⟨none, some ["战斗结束"], none⟩

/-- C7: every score produced by the consistency checker — trait check,
plot check, worldview check, per-chapter composite, and all five score
fields of the aggregate check — lies in `[0, 100]`. -/
theorem consistency_scores_in_range :
    (∀ n c p, 0 ≤ (check_character_consistency n c p).score ∧
      (check_character_consistency n c p).score ≤ 100) ∧
    (∀ c ps, 0 ≤ (check_plot_consistency c ps).score ∧
      (check_plot_consistency c ps).score ≤ 100) ∧
    (∀ c w, 0 ≤ (check_worldview_consistency c w).score ∧
      (check_worldview_consistency c w).score ≤ 100) ∧
    (∀ cd ctx, 0 ≤ (check_chapter_consistency cd ctx).score ∧
      (check_chapter_consistency cd ctx).score ≤ 100) ∧
    (∀ characters chapters,
      (0 ≤ (full_consistency_check characters chapters).character_score ∧
        (full_consistency_check characters chapters).character_score ≤ 100) ∧
      (0 ≤ (full_consistency_check characters chapters).plot_score ∧
        (full_consistency_check characters chapters).plot_score ≤ 100) ∧
      (0 ≤ (full_consistency_check characters chapters).worldview_score ∧
        (full_consistency_check characters chapters).worldview_score ≤ 100) ∧
      (0 ≤ (full_consistency_check characters chapters).timeline_score ∧
        (full_consistency_check characters chapters).timeline_score ≤ 100) ∧
      (0 ≤ (full_consistency_check characters chapters).overall_score ∧
        (full_consistency_check characters chapters).overall_score ≤ 100)) := by
  refine ⟨?_, ?_, ?_, ?_, ?_⟩
  · intro n c p
    rcases check_character_consistency_score n c p with h | h <;> rw [h] <;> norm_num
  · intro c ps
    have h := check_plot_consistency_score c ps
    exact ⟨by omega, h.2⟩
  · intro c w
    rw [check_worldview_consistency_score]
    norm_num
  · intro cd ctx
    obtain ⟨-, -, h1, h2⟩ := check_chapter_consistency_props cd ctx
    exact ⟨h1, h2⟩
  · intro characters chapters
    obtain ⟨hc, hp, ho⟩ := full_check_bounds characters chapters
    obtain ⟨hw, ht, -⟩ := full_check_overall_eq characters chapters
    refine ⟨hc, hp, ?_, ?_, ho⟩
    · rw [hw]; norm_num
    · rw [ht]; norm_num

/-- Lookup after assignment in an association list. -/
theorem alGet_alSet {κ α : Type} [DecidableEq κ] (k k' : κ) (v : α) (l : List (κ × α)) :
    alGet k (alSet k' v l) = if k' = k then some v else alGet k l := by
  induction l with
  | nil => simp [alGet, alSet]
  | cons hd tl ih =>
    obtain ⟨a, b⟩ := hd
    by_cases h1 : a = k'
    · simp only [alSet, if_pos h1, alGet]
      split_ifs <;> simp_all
    · simp only [alSet, if_neg h1, alGet, ih]
      split_ifs <;> simp_all

/-- Assigning the same key/value twice is the same as once. -/
theorem alSet_alSet_same {κ α : Type} [DecidableEq κ] (k : κ) (v : α) (l : List (κ × α)) :
    alSet k v (alSet k v l) = alSet k v l := by
  induction l with
  | nil => simp [alSet]
  | cons hd tl ih =>
    obtain ⟨a, b⟩ := hd
    simp only [alSet]
    split_ifs with h1 <;> simp_all [alSet]

/-- A development step for a different name leaves a lookup unchanged. -/
theorem dev_step_get_ne (now : String) (n : Nat) (chars : List (String × CharData))
    (p : String × String) (nm : String) (h : p.1 ≠ nm) :
    alGet nm (dev_update_step now n chars p) = alGet nm chars := by
  unfold dev_update_step
  cases alGet p.1 chars with
  | none => rfl
  | some c => rw [alGet_alSet, if_neg h]

/-- The development fold leaves names outside the update map unchanged. -/
theorem dev_fold_not_mem (now : String) (n : Nat) (cd : List (String × String))
    (nm : String) (h : nm ∉ cd.map Prod.fst) :
    ∀ chars, alGet nm (cd.foldl (dev_update_step now n) chars) = alGet nm chars := by
  induction cd with
  | nil => intro chars; rfl
  | cons hd tl ih =>
    intro chars
    simp only [List.map_cons, List.mem_cons] at h
    push_neg at h
    simp only [List.foldl_cons]
    rw [ih h.2, dev_step_get_ne now n chars hd nm (fun he => h.1 he.symm)]

/-- The development fold applied to a known character appends exactly one
history entry and sets `last_appearance` — provided the update map has no
duplicate names (it models a Python dict). -/
theorem dev_fold_mem (now : String) (n : Nat) (cd : List (String × String))
    (nm note : String) (hnodup : (cd.map Prod.fst).Nodup) (hmem : (nm, note) ∈ cd) :
    ∀ chars c, alGet nm chars = some c →
      alGet nm (cd.foldl (dev_update_step now n) chars)
        = some { c with
            last_appearance := n
            development_history := c.development_history ++ [⟨n, note, now⟩] } := by
  induction cd with
  | nil => intro chars c hc; cases hmem
  | cons hd tl ih =>
    intro chars c hc
    simp only [List.map_cons, List.nodup_cons] at hnodup
    simp only [List.foldl_cons]
    rcases List.mem_cons.mp hmem with heq | htl
    · have hd1 : hd.1 = nm := by rw [← heq]
      have hstep : alGet nm (dev_update_step now n chars hd) = some
          { c with
            last_appearance := n
            development_history := c.development_history ++ [⟨n, hd.2, now⟩] } := by
        unfold dev_update_step
        rw [hd1, hc]
        rw [alGet_alSet, if_pos rfl]
      have hout : nm ∉ tl.map Prod.fst := by rw [← hd1]; exact hnodup.1
      rw [dev_fold_not_mem now n tl nm hout, hstep]
      have hnote : hd.2 = note := by rw [← heq]
      rw [hnote]
    · have hne : hd.1 ≠ nm := by
        intro he
        apply hnodup.1
        rw [he]
        exact List.mem_map.mpr ⟨(nm, note), htl, rfl⟩
      have hstep := dev_step_get_ne now n chars hd nm hne
      exact ih hnodup.2 htl (dev_update_step now n chars hd) c (by rw [hstep]; exact hc)

/-- The characters field after `update_with_chapter` is exactly the
development fold. -/
theorem update_characters_eq (now : String) (n : Nat) (d : ChapterInput) (s : MemoryState) :
    (update_with_chapter now n d s).characters
      = d.character_development.foldl (dev_update_step now n) s.characters := rfl

/-- The chapter-summaries field after `update_with_chapter` is exactly the
overwriting assignment of the freshly built record. -/
theorem update_summaries_eq (now : String) (n : Nat) (d : ChapterInput) (s : MemoryState) :
    (update_with_chapter now n d s).chapter_summaries
      = alSet n (SummaryVal.record (make_chapter_summary now n d)) s.chapter_summaries := rfl

/-- The inner break of `_extract_plots` updates a plot exactly when some
key event matches one of its keywords — at most one update per plot. -/
theorem plot_touch_eq (now : String) (ch : Nat) (key_events : List String) (p : Plot) :
    plot_touch now ch key_events p =
      if key_events.any (fun ev => p.keywords.any (fun kw => strIn kw ev)) then
        { p with chapters := p.chapters ++ [ch], last_updated := some now }
      else p := by
  induction key_events with
  | nil => simp [plot_touch]
  | cons ev rest ih =>
    by_cases hm : (p.keywords.any (fun kw => strIn kw ev)) = true
    · simp [plot_touch, hm]
    · have hm' : (p.keywords.any (fun kw => strIn kw ev)) = false := by
        cases hb : p.keywords.any (fun kw => strIn kw ev)
        · rfl
        · exact absurd hb hm
      simp [plot_touch, hm', ih]

/-- C2: counterexample. With two existing threads both matching the key
events (keyword "事件" is a substring of both events), the source extends
BOTH threads (the `break` only leaves the inner event loop) and still
creates a new thread although a match existed (creation only requires ≥ 2
key events). The claim predicts a result of length 2 with the second
thread untouched; the code returns length 3 with the second thread
extended. -/
theorem extract_plots_claim_fails :
    (extract_plots "t1" ["事件一", "事件二"] 5 [sample_plot, sample_plot]).length ≠ 2 ∧
    ((extract_plots "t1" ["事件一", "事件二"] 5 [sample_plot, sample_plot]).getD 1
      sample_plot).chapters ≠ sample_plot.chapters := by decide

/-- C2 (amended): when `key_events` is non-empty, every existing thread
whose keywords substring-match some key event is extended (each at most
once), and a new thread — keywords the first 3 key events, start = end =
current chapter — is created whenever `key_events` has at least 2 entries,
regardless of whether an existing thread matched. -/
theorem extract_plots_spec (now : String) (ch : Nat) (key_events : List String)
    (plots : List Plot) (hne : key_events ≠ []) :
    extract_plots now key_events ch plots =
      plots.map (fun p =>
        if key_events.any (fun ev => p.keywords.any (fun kw => strIn kw ev)) then
          { p with chapters := p.chapters ++ [ch], last_updated := some now }
        else p) ++
      (if 2 ≤ key_events.length then
        [{ name := "情节线_" ++ toString (plots.length + 1), start_chapter := ch,
           end_chapter := ch, keywords := key_events.take 3, chapters := [ch],
           created_at := now, last_updated := none, current_status := "进行中" }]
      else []) := by
  have hf : plot_touch now ch key_events = fun p =>
      if key_events.any (fun ev => p.keywords.any (fun kw => strIn kw ev)) then
        { p with chapters := p.chapters ++ [ch], last_updated := some now }
      else p := funext (plot_touch_eq now ch key_events)
  unfold extract_plots
  rw [if_neg hne, hf]
  split_ifs with h2
  · rfl
  · simp

/-- Witness for the amended `_extract_plots` theorem at a single key
event and no pre-existing threads. -/
theorem extract_plots_spec_witness :
    extract_plots "t2" ["某事"] 7 [] =
      ([] : List Plot).map (fun p =>
        if (["某事"].any (fun ev => p.keywords.any (fun kw => strIn kw ev))) then
          { p with chapters := p.chapters ++ [7], last_updated := some "t2" }
        else p) ++
      (if 2 ≤ (["某事"] : List String).length then
        [{ name := "情节线_" ++ toString (([] : List Plot).length + 1), start_chapter := 7,
           end_chapter := 7, keywords := (["某事"] : List String).take 3, chapters := [7],
           created_at := "t2", last_updated := none, current_status := "进行中" }]
      else []) :=
  extract_plots_spec "t2" 7 ["某事"] [] (by decide)

/-- C3: running `update_with_chapter` twice with the same chapter number,
chapter data and timestamp leaves the chapter-summaries map identical to a
single call (the record is wholly overwritten, no duplication), while each
known character named in `character_development` gains one development
entry per call — one entry after one call, two after the two calls (the
known idempotence gap). The no-duplicate-names hypothesis models the
Python dict `character_development`. -/
theorem update_with_chapter_twice (now : String) (n : Nat) (d : ChapterInput) (s : MemoryState)
    (hnodup : (d.character_development.map Prod.fst).Nodup) :
    (update_with_chapter now n d (update_with_chapter now n d s)).chapter_summaries
      = (update_with_chapter now n d s).chapter_summaries ∧
    (∀ nm note c, (nm, note) ∈ d.character_development →
      alGet nm s.characters = some c →
      (∃ c1, alGet nm (update_with_chapter now n d s).characters = some c1 ∧
        c1.development_history.length = c.development_history.length + 1) ∧
      (∃ c2, alGet nm (update_with_chapter now n d
          (update_with_chapter now n d s)).characters = some c2 ∧
        c2.development_history.length = c.development_history.length + 2)) := by
  constructor
  · rw [update_summaries_eq, update_summaries_eq, alSet_alSet_same]
  · intro nm note c hmem hc
    have h1 := dev_fold_mem now n d.character_development nm note hnodup hmem s.characters c hc
    rw [← update_characters_eq] at h1
    have h2 := dev_fold_mem now n d.character_development nm note hnodup hmem
      (update_with_chapter now n d s).characters _ h1
    rw [← update_characters_eq] at h2
    refine ⟨⟨_, h1, by simp⟩, ⟨_, h2, by simp⟩⟩

/-- Witness for the double-update theorem on a one-character store. -/
theorem update_with_chapter_twice_witness :
    ((update_with_chapter "t0" 1 (ChapterInput.mk "正文内容" "本章摘要" [] [("张三", "成长")])
        (update_with_chapter "t0" 1 (ChapterInput.mk "正文内容" "本章摘要" [] [("张三", "成长")])
          (MemoryState.mk (CoreSettings.mk none none []) [("张三", CharData.mk (some 10) 0 [])]
            [] [] [] [] [] []))).chapter_summaries
      = (update_with_chapter "t0" 1 (ChapterInput.mk "正文内容" "本章摘要" [] [("张三", "成长")])
          (MemoryState.mk (CoreSettings.mk none none []) [("张三", CharData.mk (some 10) 0 [])]
            [] [] [] [] [] [])).chapter_summaries) ∧
    (∀ nm note c,
      (nm, note) ∈ [("张三", "成长")] →
      alGet nm [("张三", CharData.mk (some 10) 0 [])] = some c →
      (∃ c1, alGet nm (update_with_chapter "t0" 1
          (ChapterInput.mk "正文内容" "本章摘要" [] [("张三", "成长")])
          (MemoryState.mk (CoreSettings.mk none none []) [("张三", CharData.mk (some 10) 0 [])]
            [] [] [] [] [] [])).characters = some c1 ∧
        c1.development_history.length = c.development_history.length + 1) ∧
      (∃ c2, alGet nm (update_with_chapter "t0" 1
          (ChapterInput.mk "正文内容" "本章摘要" [] [("张三", "成长")])
          (update_with_chapter "t0" 1 (ChapterInput.mk "正文内容" "本章摘要" [] [("张三", "成长")])
            (MemoryState.mk (CoreSettings.mk none none []) [("张三", CharData.mk (some 10) 0 [])]
              [] [] [] [] [] []))).characters = some c2 ∧
        c2.development_history.length = c.development_history.length + 2)) :=
  update_with_chapter_twice "t0" 1 (ChapterInput.mk "正文内容" "本章摘要" [] [("张三", "成长")])
    (MemoryState.mk (CoreSettings.mk none none []) [("张三", CharData.mk (some 10) 0 [])]
      [] [] [] [] [] []) (by decide)

/-- C4: counterexample. If the character-category write raises, the save
stops: only the core settings were written; chapter summaries, worldview,
timeline, plots and locations are NOT written, contradicting the claimed
best-effort per-category behaviour. -/
theorem save_to_disk_claim_fails :
    save_to_disk (fun c => c == SaveCategory.characters)
      = (false, [SaveCategory.core_settings]) ∧
    SaveCategory.summaries ∉ (save_to_disk (fun c => c == SaveCategory.characters)).2 ∧
    SaveCategory.worldview ∉ (save_to_disk (fun c => c == SaveCategory.characters)).2 := by
  decide

/-- C4 (amended): `_save_to_disk` is one `try/except`: a failure while
writing the character category is reported to the caller (the save returns
failure) and prevents every later category — chapter summaries, worldview,
timeline, plots, locations — from being written. -/
theorem save_to_disk_aborts (fails : SaveCategory → Bool)
    (h : fails SaveCategory.characters = true) :
    (save_to_disk fails).1 = false ∧
    SaveCategory.summaries ∉ (save_to_disk fails).2 ∧
    SaveCategory.worldview ∉ (save_to_disk fails).2 ∧
    SaveCategory.timeline ∉ (save_to_disk fails).2 ∧
    SaveCategory.plots ∉ (save_to_disk fails).2 ∧
    SaveCategory.locations ∉ (save_to_disk fails).2 := by
  unfold save_to_disk save_order
  cases hc : fails SaveCategory.core_settings <;>
    simp [save_to_disk_loop, hc, h]

/-- Witness for the aborted-save theorem with the character write failing. -/
theorem save_to_disk_aborts_witness :
    (save_to_disk (fun c => decide (c = SaveCategory.characters))).1 = false ∧
    SaveCategory.summaries ∉ (save_to_disk (fun c => decide (c = SaveCategory.characters))).2 ∧
    SaveCategory.worldview ∉ (save_to_disk (fun c => decide (c = SaveCategory.characters))).2 ∧
    SaveCategory.timeline ∉ (save_to_disk (fun c => decide (c = SaveCategory.characters))).2 ∧
    SaveCategory.plots ∉ (save_to_disk (fun c => decide (c = SaveCategory.characters))).2 ∧
    SaveCategory.locations ∉ (save_to_disk (fun c => decide (c = SaveCategory.characters))).2 :=
  save_to_disk_aborts (fun c => decide (c = SaveCategory.characters)) (by decide)

/-- C9: importing data that lacks any of the four mandatory categories
(core settings, characters, worldview, chapter summaries) returns failure
and leaves the whole in-memory state exactly as it was — the validation
runs before any mutation. -/
theorem import_memory_all_or_nothing (s : MemoryState) (d : ImportData)
    (h : d.core_settings = none ∨ d.characters = none ∨ d.worldview = none ∨
      d.chapter_summaries = none) :
    import_memory s d = (false, s) := by
  cases hc : d.core_settings <;> cases hch : d.characters <;>
    cases hw : d.worldview <;> cases hcs : d.chapter_summaries <;>
    simp_all [import_memory]

/-- Witness for the import-validation theorem: an import payload missing
all mandatory categories is rejected and the state is untouched. -/
theorem import_memory_all_or_nothing_witness :
    import_memory
      (MemoryState.mk (CoreSettings.mk none none [("title", "示例")]) [] [] [] [] [] [] [])
      (ImportData.mk none none none none none none none)
      = (false,
        MemoryState.mk (CoreSettings.mk none none [("title", "示例")]) [] [] [] [] [] [] []) :=
  import_memory_all_or_nothing
    (MemoryState.mk (CoreSettings.mk none none [("title", "示例")]) [] [] [] [] [] [] [])
    (ImportData.mk none none none none none none none) (Or.inl rfl)

/-- C8: the relevance computation is a deterministic function of the
snapshot it reads — the characters map and the chapter summaries — for
any fixed hash function (md5 is one fixed pure function): two states that
agree on those fields yield identical selected characters and identical
relevance scores for every name, whatever their other fields. -/
theorem relevance_deterministic (h : String → Nat) (s1 s2 : MemoryState) (chapter_number : Nat)
    (hch : s1.characters = s2.characters)
    (hsum : s1.chapter_summaries = s2.chapter_summaries) :
    get_relevant_characters h s1 chapter_number = get_relevant_characters h s2 chapter_number ∧
    (∀ nm, calculate_character_relevance h s1 nm chapter_number
        = calculate_character_relevance h s2 nm chapter_number) := by
  unfold get_relevant_characters calculate_character_relevance
  rw [hch, hsum]
  exact ⟨rfl, fun _ => rfl⟩

/-- Witness for the determinism theorem: two states that share characters
and summaries but have different timelines select identically. -/
theorem relevance_deterministic_witness :
    get_relevant_characters (fun s => s.length)
      (MemoryState.mk (CoreSettings.mk none none []) [("主角甲", CharData.mk (some 10) 0 [])]
        [] [(1, SummaryVal.txt "主角甲出场")] [] [] [] []) 2
      = get_relevant_characters (fun s => s.length)
        (MemoryState.mk (CoreSettings.mk none none []) [("主角甲", CharData.mk (some 10) 0 [])]
          [] [(1, SummaryVal.txt "主角甲出场")] []
          [TimelineEvent.mk 1 "出场" "t0" "chapter_event"] [] []) 2 ∧
    (∀ nm, calculate_character_relevance (fun s => s.length)
        (MemoryState.mk (CoreSettings.mk none none []) [("主角甲", CharData.mk (some 10) 0 [])]
          [] [(1, SummaryVal.txt "主角甲出场")] [] [] [] []) nm 2
      = calculate_character_relevance (fun s => s.length)
        (MemoryState.mk (CoreSettings.mk none none []) [("主角甲", CharData.mk (some 10) 0 [])]
          [] [(1, SummaryVal.txt "主角甲出场")] []
          [TimelineEvent.mk 1 "出场" "t0" "chapter_event"] [] []) nm 2) :=
  relevance_deterministic (fun s => s.length)
    (MemoryState.mk (CoreSettings.mk none none []) [("主角甲", CharData.mk (some 10) 0 [])]
      [] [(1, SummaryVal.txt "主角甲出场")] [] [] [] [])
    (MemoryState.mk (CoreSettings.mk none none []) [("主角甲", CharData.mk (some 10) 0 [])]
      [] [(1, SummaryVal.txt "主角甲出场")] []
      [TimelineEvent.mk 1 "出场" "t0" "chapter_event"] [] []) 2 rfl rfl

/-- C10: the second definition of `get_chapter_plan` shadows the first, so
the effective method never reads `core_settings['chapter_plan']` back: its
result is unchanged by `save_chapter_plan`, always has
`max 10 (target_words / 3000)` entries recomputed from the outline (the
shadowed first definition is the one that would have returned the stored
plan), and in particular a saved plan of a different length is never
returned. -/
theorem get_chapter_plan_shadowing (s : MemoryState) (p : List PlanEntry) :
    get_chapter_plan (save_chapter_plan p s) = get_chapter_plan s ∧
    (get_chapter_plan s).length = max 10 (plan_target_words s / 3000) ∧
    get_chapter_plan_first_def (save_chapter_plan p s) = p ∧
    (p.length ≠ (get_chapter_plan s).length → get_chapter_plan (save_chapter_plan p s) ≠ p) := by
  have h1 : get_chapter_plan (save_chapter_plan p s) = get_chapter_plan s := rfl
  have h2 : (get_chapter_plan s).length = max 10 (plan_target_words s / 3000) := by
    unfold get_chapter_plan
    simp
  refine ⟨h1, h2, rfl, ?_⟩
  intro hlen hcontra
  apply hlen
  rw [← hcontra, h1]

/-- Witness for the shadowing theorem: saving an empty plan on a fresh
store, the recomputed 33-entry plan is returned instead of the saved one. -/
theorem get_chapter_plan_shadowing_witness :
    get_chapter_plan (save_chapter_plan []
        (MemoryState.mk (CoreSettings.mk none none []) [] [] [] [] [] [] []))
      = get_chapter_plan (MemoryState.mk (CoreSettings.mk none none []) [] [] [] [] [] [] []) ∧
    get_chapter_plan (save_chapter_plan []
        (MemoryState.mk (CoreSettings.mk none none []) [] [] [] [] [] [] [])) ≠ [] := by
  have h := get_chapter_plan_shadowing
    (MemoryState.mk (CoreSettings.mk none none []) [] [] [] [] [] [] []) []
  have hlen : (get_chapter_plan
      (MemoryState.mk (CoreSettings.mk none none []) [] [] [] [] [] [] [])).length = 33 := by
    rw [h.2.1]
    decide
  exact ⟨h.1, h.2.2.2 (by rw [hlen]; decide)⟩

/-- C5: counterexample. Two known characters 甲 and 乙 both occurring once
within 500 characters produce TWO graph records — keys `甲-乙` and `乙-甲` —
because the nested loops visit both orientations of the pair and the key
is the ordered concatenation, contrary to the claimed single canonical
record per unordered pair. -/
theorem update_relationships_claim_fails :
    (update_relationships ["甲", "乙"] "甲对乙说了一句话" 3 []).length = 2 ∧
    (alGet "甲-乙" (update_relationships ["甲", "乙"] "甲对乙说了一句话" 3 [])).isSome = true ∧
    (alGet "乙-甲" (update_relationships ["甲", "乙"] "甲对乙说了一句话" 3 [])).isSome = true ∧
    (update_relationships ["甲", "乙"] "甲对乙说了一句话" 3 []).length ≠ 1 := by
  decide

/-- C5 (amended): for two known characters both appearing in the content
with first occurrences fewer than 500 characters apart, starting from an
empty graph the update creates one record per ORDERED pair — `A-B` and
`B-A` — each with `interaction_count = 1` and
`interaction_chapters = [chapter]`. -/
theorem update_relationships_spec (A B content : String) (ch : Nat)
    (hAB : A ≠ B) (hkeys : A ++ "-" ++ B ≠ B ++ "-" ++ A)
    (hA : strIn A content = true) (hB : strIn B content = true)
    (hdist : (str_find A content - str_find B content).natAbs < 500) :
    update_relationships [A, B] content ch [] =
      [(A ++ "-" ++ B, RelRecord.mk [A, B] 1 ch ch [ch]),
       (B ++ "-" ++ A, RelRecord.mk [B, A] 1 ch ch [ch])] := by
  have hpAB : pairInteracts content A B = true := by
    unfold pairInteracts
    rw [if_pos hAB, if_pos (by rw [hA, hB]; rfl), if_pos hdist]
  have hpBA : pairInteracts content B A = true := by
    unfold pairInteracts
    have hdist' : (str_find B content - str_find A content).natAbs < 500 := by
      rw [show str_find B content - str_find A content
          = -(str_find A content - str_find B content) by ring, Int.natAbs_neg]
      exact hdist
    rw [if_pos (Ne.symm hAB), if_pos (by rw [hA, hB]; rfl), if_pos hdist']
  have hpAA : pairInteracts content A A = false := by simp [pairInteracts]
  have hpBB : pairInteracts content B B = false := by simp [pairInteracts]
  unfold update_relationships
  have hinter :
      ((([A, B].map (fun c1 => ([A, B].filter (fun c2 => pairInteracts content c1 c2)).map
        (fun c2 => (c1, c2))))).flatten) = [(A, B), (B, A)] := by
    simp [List.filter_cons, hpAB, hpBA, hpAA, hpBB]
  rw [hinter]
  simp only [List.foldl_cons, List.foldl_nil]
  unfold add_interaction
  simp only [alGet, alSet]
  rw [if_neg hkeys]
  simp [alGet, alSet, if_neg hkeys]

/-- Witness for the amended relationship-update theorem with the scenario
characters 甲 and 乙. -/
theorem update_relationships_spec_witness :
    update_relationships ["张三", "李四"] "张三与李四同行" 2 [] =
      [("张三" ++ "-" ++ "李四", RelRecord.mk ["张三", "李四"] 1 2 2 [2]),
       ("李四" ++ "-" ++ "张三", RelRecord.mk ["李四", "张三"] 1 2 2 [2])] :=
  update_relationships_spec "张三" "李四" "张三与李四同行" 2 (by decide) (by decide)
    (by decide) (by decide) (by decide)
